import Mathlib

/-!
# Verification of the Task-Management API against its specification

Shallow embedding of the `RESTful-API-with-Authentication` repository
(FastAPI + SQLAlchemy task manager with JWT authentication), faithful to
the Python sources:

* `app/utils/validators.py`   — input validation and sanitization,
* `app/services/auth_service.py` — JWT issuance and validation,
* `app/routes/auth.py`        — registration and login,
* `app/routes/users.py`       — profile and admin activate/deactivate,
* `app/routes/tasks.py`       — task CRUD with owner scoping,
* `app/models/task.py`, `app/models/user.py` — the data model.

Modelling conventions:

* The relational store is a `List` of records in insertion order (the
  store-default order the spec documents for unordered queries);
  `query(...).filter(...).first()` is `List.find?`, a bulk filter is
  `List.filter`, `offset/limit` are `List.drop/take`.
* Machine timestamps (`datetime.utcnow`, column defaults) are explicit
  `Nat` parameters threaded through the operations.
* Autoincrement primary keys are modelled as `max id + 1`.
* A raised `HTTPException` is an `Except.error` carrying status code and
  detail; a route that raises before `db.commit()` leaves the store
  unchanged, so every mutating operation returns the response together
  with the resulting store.
* The `updated_at` columns (`onupdate=func.now()`) are bookkeeping kept
  by the database engine — which the spec's §1 declares an external
  collaborator — are never assigned by any route and appear in no claim;
  they are omitted from the record types.
* The `created_at` column of users is likewise omitted (no claim or user
  view mentions it); the `created_at` column of tasks is kept because the
  update frame property names it.
-/

namespace TaskApi

/-! ## HTTP errors

`fastapi.HTTPException` reduced to the data the routes put in it. -/

/-- An HTTP error response: status code plus human-readable detail,
as raised via `HTTPException` in the routes. -/
structure HTTPError where
  statusCode : Nat
  detail : String
deriving DecidableEq, Repr

deriving instance DecidableEq for Except

/-! ## Character classes used by `app/utils/validators.py`

The Python `re` module is embedded at the level of the concrete patterns
the file uses, character class by character class. -/

/-- `[a-zA-Z]` — ASCII letters. -/
def isAsciiAlpha (c : Char) : Bool :=
  ('a' ≤ c && c ≤ 'z') || ('A' ≤ c && c ≤ 'Z')

/-- `[0-9]` (and Python `\d` on the ASCII range) — ASCII digits. -/
def isAsciiDigit (c : Char) : Bool :=
  '0' ≤ c && c ≤ '9'

/-- `[a-zA-Z0-9_]` — the username character class of
`validators.validate_username`. -/
def isUsernameChar (c : Char) : Bool :=
  isAsciiAlpha c || isAsciiDigit c || c == '_'

/-- Code points matched by Python's (unicode) `\s` and stripped by
`str.strip()`: tab, LF, VT, FF, CR, FS, GS, RS, US, space, NEL, NBSP and
the Unicode space separators. -/
def pySpaceCodes : List Nat :=
  [9, 10, 11, 12, 13, 28, 29, 30, 31, 32, 133, 160, 5760,
   8192, 8193, 8194, 8195, 8196, 8197, 8198, 8199, 8200, 8201, 8202,
   8232, 8233, 8239, 8287, 12288]

/-- Whitespace in the sense of Python's `\s` / `str.strip`. -/
def isPySpace (c : Char) : Bool :=
  pySpaceCodes.contains c.toNat

/-! ## `sanitize_string` (`validators.py`, lines 65–85)

```python
sanitized = re.sub(r'<[^>]*>', '', input_string)
sanitized = re.sub(r'\s+', ' ', sanitized)
sanitized = sanitized.strip()
```
-/

/-- Does a `>` occur in the list?  (`<[^>]*>` can only match after a `<`
when the remaining input still holds a `>`.) -/
def hasGt (cs : List Char) : Bool :=
  cs.any (fun c => c == '>')

/-- Right fold computing `re.sub(r'<[^>]*>', '', ·)`.

Returns `(r, s, g)` for the processed suffix, where `r` is the suffix
with every tag removed, `s` is the tag-removed form of what follows the
first `>` of the suffix (used when an earlier `<` closes here), and `g`
records whether the suffix contains a `>`.  A `<` whose suffix holds a
`>` swallows everything up to that first `>` (the regex `[^>]*` cannot
cross a `>`); a `<` with no later `>` matches nothing and is kept. -/
def rtAux : List Char → List Char × List Char × Bool
  | [] => ([], [], false)
  | c :: rest =>
    let (r, s, g) := rtAux rest
    ( if c == '<' then (if g then s else c :: r) else c :: r
    , if c == '>' then r else s
    , c == '>' || g )

/-- `re.sub(r'<[^>]*>', '', ·)` — remove every HTML-tag-like substring. -/
def removeTags (cs : List Char) : List Char :=
  (rtAux cs).1

/-- `re.sub(r'\s+', ' ', ·)` — replace every maximal whitespace run by a
single space. -/
def collapseWs : List Char → List Char
  | [] => []
  | [c] => if isPySpace c then [' '] else [c]
  | c₁ :: c₂ :: rest =>
    if isPySpace c₁ && isPySpace c₂ then collapseWs (c₂ :: rest)
    else (if isPySpace c₁ then ' ' else c₁) :: collapseWs (c₂ :: rest)

/-- `str.strip()` — drop whitespace from both ends. -/
def stripWs (cs : List Char) : List Char :=
  (((cs.dropWhile isPySpace).reverse.dropWhile isPySpace)).reverse

/-- `sanitize_string` on a present string: tag removal, whitespace
collapsing, then strip. -/
def sanitizeStr (s : String) : String :=
  String.mk (stripWs (collapseWs (removeTags s.data)))

/-- `validators.sanitize_string`: `None` passes through, otherwise the
three-stage cleanup runs. -/
def sanitize_string : Option String → Option String
  | none => none
  | some s => some (sanitizeStr s)

/-! ## `validate_username` / `validate_email` / `validate_password`

Python's `re.match(p, s)` anchors at the start; a trailing `$` in the
pattern matches at the very end of the string **or just before a final
newline** — that CPython behaviour is embedded as written, because the
code relies on `$` (not `\Z`). -/

/-- The body `[a-zA-Z0-9_]+` of the username pattern: nonempty and all
characters in the class. -/
def usernameCore (cs : List Char) : Bool :=
  !cs.isEmpty && cs.all isUsernameChar

/-- `re.match(r'^[a-zA-Z0-9_]+$', s)` as a Boolean: the core matches the
whole string, or the whole string minus one final newline. -/
def matchesUsernamePattern (s : String) : Bool :=
  usernameCore s.data ||
    (s.data.getLast? == some '\n' && usernameCore s.data.dropLast)

/-- `validators.validate_username` (lines 48–63): length 3–50 first,
then the regex. -/
def validate_username (s : String) : Bool :=
  if !(3 ≤ s.length && s.length ≤ 50) then false
  else matchesUsernamePattern s

/-- `[a-zA-Z0-9._%+-]` — local-part class of the email pattern. -/
def isEmailLocalChar (c : Char) : Bool :=
  isAsciiAlpha c || isAsciiDigit c ||
    c == '.' || c == '_' || c == '%' || c == '+' || c == '-'

/-- `[a-zA-Z0-9.-]` — domain class of the email pattern. -/
def isEmailDomainChar (c : Char) : Bool :=
  isAsciiAlpha c || isAsciiDigit c || c == '.' || c == '-'

/-- Split a list at the first occurrence of `x`: `some (before, after)`
with `x` itself dropped, or `none` when `x` is absent. -/
def splitAtFirst (x : Char) : List Char → Option (List Char × List Char)
  | [] => none
  | c :: rest =>
    if c == x then some ([], rest)
    else (splitAtFirst x rest).map (fun pr => (c :: pr.1, pr.2))

/-- The domain side `[a-zA-Z0-9.-]+\.[a-zA-Z]{2,}` of the email pattern:
split at the **last** dot (the TLD segment is all-alphabetic, so no
earlier dot can serve); the front must be a nonempty run of domain
characters, the back an alphabetic run of length at least 2. -/
def emailDomainOk (cs : List Char) : Bool :=
  match splitAtFirst '.' cs.reverse with
  | none => false
  | some (tldRev, frontRev) =>
    let tld := tldRev.reverse
    let front := frontRev.reverse
    !front.isEmpty && front.all isEmailDomainChar &&
      2 ≤ tld.length && tld.all isAsciiAlpha

/-- The email pattern body `[a-zA-Z0-9._%+-]+@[a-zA-Z0-9.-]+\.[a-zA-Z]{2,}`
(the local class excludes `@`, so only the first `@` can split). -/
def emailCore (cs : List Char) : Bool :=
  match splitAtFirst '@' cs with
  | none => false
  | some (localPart, domain) =>
    !localPart.isEmpty && localPart.all isEmailLocalChar && emailDomainOk domain

/-- `validators.validate_email` (lines 10–21): anchored pattern with the
same `$`-before-final-newline allowance. -/
def validate_email (s : String) : Bool :=
  emailCore s.data ||
    (s.data.getLast? == some '\n' && emailCore s.data.dropLast)

/-- The fixed punctuation class `[!@#$%^&*(),.?":{}|<>]` of
`validate_password` (braces, quote and bar written by code point). -/
def pwSpecialCodes : List Nat :=
  [33, 64, 35, 36, 37, 94, 38, 42, 40, 41, 44, 46, 63, 34, 58,
   123, 125, 124, 60, 62]

/-- Membership in the password special-character class. -/
def isPwSpecial (c : Char) : Bool :=
  pwSpecialCodes.contains c.toNat

/-- `validators.validate_password` (lines 23–46): length at least 8 and
one character from each of the four classes (`re.search`, anywhere in
the string). -/
def validate_password (s : String) : Bool :=
  if s.length < 8 then false
  else
    s.data.any (fun c => 'A' ≤ c && c ≤ 'Z') &&
    s.data.any (fun c => 'a' ≤ c && c ≤ 'z') &&
    s.data.any isAsciiDigit &&
    s.data.any isPwSpecial

/-- `validators.validate_registration_data` (lines 87–115): fail fast
with the specific 400 message, in the order username → email → password;
`none` means all three checks passed. -/
def validate_registration_data (username email password : String) :
    Option HTTPError :=
  if !validate_username username then
    some ⟨400, "Username must be 3-50 characters and contain only letters, numbers, and underscores"⟩
  else if !validate_email email then
    some ⟨400, "Invalid email address"⟩
  else if !validate_password password then
    some ⟨400, "Password must be at least 8 characters and contain uppercase, lowercase, number, and special character"⟩
  else none

/-! ## Data model (`app/models/task.py`, `app/models/user.py`) -/

/-- `TaskStatus` enumeration. -/
inductive TaskStatus
  | todo
  | inProgress
  | completed
deriving DecidableEq, Repr

/-- `TaskPriority` enumeration. -/
inductive TaskPriority
  | low
  | medium
  | high
deriving DecidableEq, Repr

/-- A row of the `tasks` table. -/
structure Task where
  id : Nat
  title : String
  description : Option String
  status : TaskStatus
  priority : TaskPriority
  dueDate : Option Nat
  ownerId : Nat
  createdAt : Nat
  completedAt : Option Nat
deriving DecidableEq, Repr

/-- A row of the `users` table. -/
structure UserRec where
  id : Nat
  email : String
  username : String
  hashedPassword : String
  fullName : Option String
  isActive : Bool
  isAdmin : Bool
deriving DecidableEq, Repr

/-- The `UserResponse` schema shared by `routes/auth.py` (lines 29–39)
and `routes/users.py` (lines 23–33): the user view exposed by register,
`/users/me` and the admin listing.  It has exactly these six fields —
in particular no password-hash field. -/
structure UserResponse where
  id : Nat
  username : String
  email : String
  fullName : Option String
  isActive : Bool
  isAdmin : Bool
deriving DecidableEq, Repr

/-- Serialization of a user row through `UserResponse`
(`from_attributes = True`): copy the six exposed fields. -/
def toUserResponse (u : UserRec) : UserResponse :=
  ⟨u.id, u.username, u.email, u.fullName, u.isActive, u.isAdmin⟩

/-- Replace the first element satisfying `p` (the row returned by
`query(...).first()` and then mutated in place). -/
def replaceFirst {α : Type} (p : α → Bool) (a : α) : List α → List α
  | [] => []
  | x :: rest => if p x then a :: rest else x :: replaceFirst p a rest

/-- Remove the first element satisfying `p` (`db.delete(row)`). -/
def removeFirst {α : Type} (p : α → Bool) : List α → List α
  | [] => []
  | x :: rest => if p x then rest else x :: removeFirst p rest

/-! ## Task routes (`app/routes/tasks.py`) -/

/-- `TaskCreate` request schema (priority defaults to medium and
description/due_date to null at the request-parsing layer; the route
receives the resolved values). -/
structure TaskCreate where
  title : String
  description : Option String
  priority : TaskPriority
  dueDate : Option Nat
deriving DecidableEq, Repr

/-- `TaskUpdate` request schema: every field optional, `none` meaning
"not supplied". -/
structure TaskUpdate where
  title : Option String
  description : Option String
  status : Option TaskStatus
  priority : Option TaskPriority
  dueDate : Option Nat
deriving DecidableEq, Repr

/-- Autoincrement primary key for the next inserted task. -/
def freshTaskId (db : List Task) : Nat :=
  (db.map Task.id).foldr Nat.max 0 + 1

/-- The 404 raised whenever no task with the requested id is owned by
the caller — deliberately identical for "wrong owner" and "no such id". -/
def taskNotFoundError : HTTPError := ⟨404, "Task not found"⟩

/-- `create_task` (lines 52–86): sanitize title and description, build
the row with column defaults (`status=todo`, `completed_at` null,
`created_at` now), owner = the authenticated user, and insert it.
Returns the created task and the new store. -/
def create_task (data : TaskCreate) (userId : Nat) (now : Nat)
    (db : List Task) : Task × List Task :=
  let newTask : Task :=
    { id := freshTaskId db
      title := sanitizeStr data.title
      description := sanitize_string data.description
      status := TaskStatus.todo
      priority := data.priority
      dueDate := data.dueDate
      ownerId := userId
      createdAt := now
      completedAt := none }
  (newTask, db ++ [newTask])

/-- `get_tasks` (lines 88–121): always filter by owner, then by the
optional status and priority equality filters, then paginate with
`offset(skip).limit(limit)` over the store-default (insertion) order. -/
def get_tasks (statusFilter : Option TaskStatus)
    (priorityFilter : Option TaskPriority) (skip limit : Nat)
    (userId : Nat) (db : List Task) : List Task :=
  let q1 : List Task := db.filter (fun t => t.ownerId == userId)
  let q2 : List Task := match statusFilter with
    | some s => q1.filter (fun t => t.status == s)
    | none => q1
  let q3 : List Task := match priorityFilter with
    | some p => q2.filter (fun t => t.priority == p)
    | none => q2
  (q3.drop skip).take limit

/-- `get_tasks` with both query parameters omitted: FastAPI substitutes
the declared defaults `skip=0`, `limit=10`. -/
def get_tasks_defaults (userId : Nat) (db : List Task) : List Task :=
  get_tasks none none 0 10 userId db

/-- `query(Task).filter(Task.id == task_id, Task.owner_id == user.id).first()`
— the owner-scoped lookup shared by get, update and delete. -/
def findTask (taskId userId : Nat) (db : List Task) : Option Task :=
  db.find? (fun t => t.id == taskId && t.ownerId == userId)

/-- `get_task` (lines 123–151): owner-scoped lookup, 404 when absent. -/
def get_task (taskId userId : Nat) (db : List Task) :
    Except HTTPError Task :=
  match findTask taskId userId db with
  | none => .error taskNotFoundError
  | some t => .ok t

/-- The field assignments of `update_task` (lines 183–196): each
supplied field overwrites the row (title and description pass through
`sanitize_string`); a supplied status of completed additionally stamps
`completed_at` with the current time. -/
def applyTaskUpdate (data : TaskUpdate) (now : Nat) (t : Task) : Task :=
  let t1 : Task := match data.title with
    | some v => { t with title := sanitizeStr v }
    | none => t
  let t2 : Task := match data.description with
    | some v => { t1 with description := some (sanitizeStr v) }
    | none => t1
  let t3 : Task := match data.status with
    | some s =>
      let ts : Task := { t2 with status := s }
      if s == TaskStatus.completed then { ts with completedAt := some now } else ts
    | none => t2
  let t4 : Task := match data.priority with
    | some v => { t3 with priority := v }
    | none => t3
  match data.dueDate with
  | some v => { t4 with dueDate := some v }
  | none => t4

/-- `update_task` (lines 153–201): owner-scoped lookup (404 leaves the
store untouched), then the partial update is applied to the found row
and committed. -/
def update_task (taskId : Nat) (data : TaskUpdate) (userId : Nat)
    (now : Nat) (db : List Task) : Except HTTPError Task × List Task :=
  match findTask taskId userId db with
  | none => (.error taskNotFoundError, db)
  | some t =>
    let t' := applyTaskUpdate data now t
    (.ok t', replaceFirst (fun u => u.id == taskId && u.ownerId == userId) t' db)

/-- `delete_task` (lines 203–231): owner-scoped lookup (404 leaves the
store untouched), then the row is removed permanently. -/
def delete_task (taskId userId : Nat) (db : List Task) :
    Except HTTPError Unit × List Task :=
  match findTask taskId userId db with
  | none => (.error taskNotFoundError, db)
  | some _ => (.ok (), removeFirst (fun u => u.id == taskId && u.ownerId == userId) db)

/-! ## Auth service (`app/services/auth_service.py`)

The `python-jose` JWT library is an external dependency; it is embedded
symbolically: a token is a term — either a payload signed by a key, or
malformed bytes — signature verification is key equality (an ideal MAC),
and the expiry check follows jose's rule (reject exactly when the `exp`
claim is in the past).  Any verification failure raises `JWTError`, which
`decode_token` collapses to `None`.  The process-wide `settings` secret
is threaded as an explicit parameter. -/

/-- `ACCESS_TOKEN_EXPIRE_MINUTES` from `config/config.py`. -/
def accessTokenExpireMinutes : Nat := 30

/-- The claims dictionary a token of this application carries:
the subject (`sub`, a user id) and the expiry (`exp`, seconds). -/
structure JwtPayload where
  sub : Option Nat
  exp : Option Nat
deriving DecidableEq, Repr

/-- A bearer token as seen by the decoder. -/
inductive JwtToken
  | signed (payload : JwtPayload) (key : String)
  | malformed (raw : String)
deriving DecidableEq, Repr

/-- Symbolic `jose.jwt.encode`. -/
def jwtEncode (payload : JwtPayload) (key : String) : JwtToken :=
  .signed payload key

/-- Symbolic `jose.jwt.decode`: a malformed token, a signature by a
different key, and an expired `exp` claim all raise `JWTError`, i.e.
yield `none` — one generic invalid signal for every failure cause. -/
def jwtDecode (tok : JwtToken) (key : String) (now : Nat) :
    Option JwtPayload :=
  match tok with
  | .malformed _ => none
  | .signed p k =>
    if k == key then
      match p.exp with
      | some e => if e < now then none else some p
      | none => some p
    else none

/-- `AuthService.create_access_token` (lines 51–75): copy the claims,
overwrite `exp` with now + the requested delta (default: the configured
30 minutes, in seconds), and sign with the process secret. -/
def create_access_token (data : JwtPayload) (expiresDelta : Option Nat)
    (now : Nat) (secret : String) : JwtToken :=
  let expire := match expiresDelta with
    | some d => now + d
    | none => now + accessTokenExpireMinutes * 60
  jwtEncode { data with exp := some expire } secret

/-- `AuthService.decode_token` (lines 77–92): verify and return the
claims, or `None` on any `JWTError`. -/
def decode_token (token : JwtToken) (now : Nat) (secret : String) :
    Option JwtPayload :=
  jwtDecode token secret now

/-! ## Auth routes (`app/routes/auth.py`) -/

/-- `UserCreate` registration request schema. -/
structure UserCreate where
  username : String
  email : String
  password : String
  fullName : Option String
deriving DecidableEq, Repr

/-- Autoincrement primary key for the next inserted user. -/
def freshUserId (db : List UserRec) : Nat :=
  (db.map UserRec.id).foldr Nat.max 0 + 1

/-- `register_user` (lines 46–91): format validation first (raising the
specific 400), then the username-conflict check, then the email-conflict
check (each raising 400 before anything is persisted), then the row is
created with the hashed password and the column defaults
`is_active=true`, `is_admin=false`, and the `UserResponse` view of it is
returned.  `hashFn` stands for the external bcrypt
`AuthService.get_password_hash`. -/
def register_user (data : UserCreate) (hashFn : String → String)
    (db : List UserRec) : Except HTTPError UserResponse × List UserRec :=
  match validate_registration_data data.username data.email data.password with
  | some e => (.error e, db)
  | none =>
    if (db.find? (fun u => u.username == data.username)).isSome then
      (.error ⟨400, "Username already registered"⟩, db)
    else if (db.find? (fun u => u.email == data.email)).isSome then
      (.error ⟨400, "Email already registered"⟩, db)
    else
      let newUser : UserRec :=
        { id := freshUserId db
          username := data.username
          email := data.email
          hashedPassword := hashFn data.password
          fullName := data.fullName
          isActive := true
          isAdmin := false }
      (.ok (toUserResponse newUser), db ++ [newUser])

/-! ## User routes (`app/routes/users.py`) -/

/-- `get_current_user_profile` (lines 35–48): return the authenticated
user through the `UserResponse` view. -/
def get_current_user_profile (u : UserRec) : UserResponse :=
  toUserResponse u

/-- `get_all_users` (lines 85–101): the unrestricted, admin-gated
listing, each row through the `UserResponse` view. -/
def get_all_users (db : List UserRec) : List UserResponse :=
  db.map toUserResponse

/-- `deactivate_user` (lines 103–140): reject self-deactivation with
400 before anything else, 404 when the target id is absent, otherwise
set the target's `is_active` to false. -/
def deactivate_user (userId : Nat) (currentUser : UserRec)
    (db : List UserRec) : Except HTTPError UserRec × List UserRec :=
  if userId == currentUser.id then
    (.error ⟨400, "Cannot deactivate yourself"⟩, db)
  else
    match db.find? (fun u => u.id == userId) with
    | none => (.error ⟨404, "User not found"⟩, db)
    | some u =>
      let u' := { u with isActive := false }
      (.ok u', replaceFirst (fun w => w.id == userId) u' db)

/-- `activate_user` (lines 142–173): 404 when the target id is absent,
otherwise set the target's `is_active` to true — no self-restriction. -/
def activate_user (userId : Nat) (_currentUser : UserRec)
    (db : List UserRec) : Except HTTPError UserRec × List UserRec :=
  match db.find? (fun u => u.id == userId) with
  | none => (.error ⟨404, "User not found"⟩, db)
  | some u =>
    let u' := { u with isActive := true }
    (.ok u', replaceFirst (fun w => w.id == userId) u' db)

/-! ## Fixtures for concrete witnesses -/

/-- A task owned by user 1. -/
def wTask1 : Task :=
  { id := 1, title := "write report", description := some "draft",
    status := .todo, priority := .medium, dueDate := none,
    ownerId := 1, createdAt := 0, completedAt := none }

/-- A second task owned by user 1. -/
def wTask2 : Task :=
  { id := 2, title := "review code", description := none,
    status := .inProgress, priority := .high, dueDate := some 100,
    ownerId := 1, createdAt := 1, completedAt := none }

/-- A third task owned by user 1. -/
def wTask3 : Task :=
  { id := 3, title := "ship release", description := none,
    status := .todo, priority := .low, dueDate := none,
    ownerId := 1, createdAt := 2, completedAt := none }

/-- A task owned by user 2. -/
def wTask4 : Task :=
  { id := 4, title := "other work", description := none,
    status := .todo, priority := .medium, dueDate := none,
    ownerId := 2, createdAt := 3, completedAt := none }

/-- A task store holding three tasks of user 1 and one of user 2. -/
def wTaskDb : List Task := [wTask1, wTask2, wTask3, wTask4]

/-- An update request that supplies no field at all. -/
def wEmptyUpdate : TaskUpdate :=
  { title := none, description := none, status := none,
    priority := none, dueDate := none }

/-- An admin user row. -/
def wAdmin : UserRec :=
  { id := 1, email := "admin@x.com", username := "admin",
    hashedPassword := "hA", fullName := none,
    isActive := true, isAdmin := true }

/-- An ordinary user row. -/
def wBob : UserRec :=
  { id := 2, email := "bob@x.com", username := "bob",
    hashedPassword := "hB", fullName := some "Bob B",
    isActive := true, isAdmin := false }

/-- A user store holding the admin and one ordinary user. -/
def wUserDb : List UserRec := [wAdmin, wBob]

/-- A user row identical to the admin except that the password hash
differs (for the hash-noninterference witness). -/
def wAdminRehashed : UserRec := { wAdmin with hashedPassword := "hA2" }

/-- A user row identical to bob except that the password hash differs. -/
def wBobRehashed : UserRec := { wBob with hashedPassword := "hB2" }

/-- `wUserDb` with every password hash replaced. -/
def wUserDbRehashed : List UserRec := [wAdminRehashed, wBobRehashed]

/-- A registration request reusing bob's username and email but with a
password that fails format validation. -/
def wDupBadPassword : UserCreate :=
  { username := "bob", email := "bob@x.com", password := "short",
    fullName := some "Impostor" }

/-- A well-formed registration request reusing bob's username. -/
def wDupUsernameData : UserCreate :=
  { username := "bob", email := "fresh@x.com", password := "Abc12345!",
    fullName := none }

/-- A well-formed registration request reusing bob's email. -/
def wDupEmailData : UserCreate :=
  { username := "carol", email := "bob@x.com", password := "Abc12345!",
    fullName := none }

/-- A trivial stand-in for the external bcrypt hash in witnesses. -/
def wHash (s : String) : String := "hashed:" ++ s

/-! ## Observation used for the hash-noninterference claim -/

/-- A user row with the password hash blanked: two rows agree on it
exactly when they agree on everything except the hash. -/
def scrubHash (u : UserRec) : UserRec :=
  { u with hashedPassword := "" }

/-! ## Structural predicates about sanitized text

These characterize the output of the three `re.sub`/`strip` stages of
`sanitize_string` and drive the idempotence proof. -/

/-- No `<` is followed — at any distance — by a `>`, i.e. no substring
matches `<[^>]*>`. -/
def tagFree : List Char → Bool
  | [] => true
  | c :: rest => (!(c == '<') || !hasGt rest) && tagFree rest

/-- The head, if any, is not whitespace. -/
def headNotWs : List Char → Bool
  | [] => true
  | c :: _ => !isPySpace c

/-- Every whitespace character is a single plain space: a whitespace
character must be `' '` and must not be followed by another whitespace
character. -/
def wsCanonical : List Char → Bool
  | [] => true
  | c :: rest => (!isPySpace c || (c == ' ' && headNotWs rest)) && wsCanonical rest

/-! ## C3 — token issuance and uniform rejection -/

/-- **C3.** A token issued for user `uid` (subject `uid`, signed with the
process secret, expiry = issue time + the requested delta or the
configured 30 minutes) decodes, at any time up to its expiry timestamp,
to claims whose subject is `uid`; at any time after the expiry, for a
malformed token, or for a token signed with a different key, decoding
returns the one generic invalid result `none`. -/
theorem token_validity_window (uid : Nat) (secret : String)
    (delta : Option Nat) (t0 now : Nat) (raw : String)
    (p : JwtPayload) (k : String) :
    (now ≤ t0 + delta.getD (accessTokenExpireMinutes * 60) →
      decode_token (create_access_token ⟨some uid, none⟩ delta t0 secret) now secret
        = some ⟨some uid, some (t0 + delta.getD (accessTokenExpireMinutes * 60))⟩) ∧
    (t0 + delta.getD (accessTokenExpireMinutes * 60) < now →
      decode_token (create_access_token ⟨some uid, none⟩ delta t0 secret) now secret
        = none) ∧
    decode_token (.malformed raw) now secret = none ∧
    (k ≠ secret → decode_token (.signed p k) now secret = none) := by
  refine ⟨?_, ?_, rfl, ?_⟩
  · intro h
    rcases delta with _ | d <;> simp [Option.getD] at h <;>
      simp [decode_token, create_access_token, jwtEncode, jwtDecode,
        Option.getD, Nat.not_lt.mpr h]
  · intro h
    rcases delta with _ | d <;> simp [Option.getD] at h <;>
      simp [decode_token, create_access_token, jwtEncode, jwtDecode,
        Option.getD, h]
  · intro h
    simp [decode_token, jwtDecode, h]

/-- Witness for C3 at concrete inputs: a token for user 7 issued at time
0 with the default TTL decodes to subject 7 at time 100, is rejected at
time 1801, and malformed / wrongly-signed tokens are rejected. -/
theorem token_validity_window_witness :
    decode_token (create_access_token ⟨some 7, none⟩ none 0 "app-secret") 100 "app-secret"
      = some ⟨some 7, some 1800⟩ ∧
    decode_token (create_access_token ⟨some 7, none⟩ none 0 "app-secret") 1801 "app-secret"
      = none ∧
    decode_token (.malformed "garbage") 100 "app-secret" = none ∧
    decode_token (.signed ⟨some 7, some 99999⟩ "other-key") 100 "app-secret" = none := by
  refine ⟨?_, ?_, ?_, ?_⟩
  · exact ((token_validity_window 7 "app-secret" none 0 100 "garbage"
      ⟨some 7, some 99999⟩ "other-key").1 (by decide))
  · exact ((token_validity_window 7 "app-secret" none 0 1801 "garbage"
      ⟨some 7, some 99999⟩ "other-key").2.1 (by decide))
  · exact ((token_validity_window 7 "app-secret" none 0 100 "garbage"
      ⟨some 7, some 99999⟩ "other-key").2.2.1)
  · exact ((token_validity_window 7 "app-secret" none 0 100 "garbage"
      ⟨some 7, some 99999⟩ "other-key").2.2.2 (by decide))

/-! ## C5 — pagination arithmetic of the task listing -/

/-- **C5.** With no status or priority filter and a valid pagination
pair (`skip = k`, `limit = m` with `1 ≤ m ≤ 100`), listing returns
exactly `min m (N - k)` tasks where `N` is the number of tasks the
caller owns (`Nat` subtraction truncates at zero, i.e. this is
`max 0 (min m (N - k))` over the integers); every returned task is owned
by the caller; omitting the parameters uses the declared defaults
`skip = 0`, `limit = 10`. -/
theorem list_pagination_count (db : List Task) (userId k m : Nat)
    (h1 : 1 ≤ m) (h2 : m ≤ 100) :
    (get_tasks none none k m userId db).length
      = min m ((db.filter (fun t => t.ownerId == userId)).length - k) ∧
    (∀ t ∈ get_tasks none none k m userId db, t.ownerId = userId) ∧
    get_tasks_defaults userId db = get_tasks none none 0 10 userId db := by
  refine ⟨?_, ?_, rfl⟩
  · simp [get_tasks]
  · intro t ht
    have hsub : get_tasks none none k m userId db
        ⊆ db.filter (fun t => t.ownerId == userId) := by
      unfold get_tasks
      exact ((List.take_sublist _ _).trans (List.drop_sublist _ _)).subset
    have := List.mem_filter.mp (hsub ht)
    exact by simpa using this.2

/-- Witness for C5: in a store where user 1 owns three tasks, listing
user 1's tasks with `skip = 1`, `limit = 2` returns
`min 2 (3 - 1) = 2` tasks. -/
theorem list_pagination_count_witness :
    (get_tasks none none 1 2 1 wTaskDb).length
      = min 2 ((wTaskDb.filter (fun t => t.ownerId == 1)).length - 1) ∧
    (get_tasks none none 1 2 1 wTaskDb).length = 2 :=
  ⟨(list_pagination_count wTaskDb 1 1 2 (by decide) (by decide)).1, by decide⟩

/-! ## C7 — `validate_username` and the trailing-newline slip

`re.match(r'^[a-zA-Z0-9_]+$', s)` also matches when `s` ends in a
newline, because Python's `$` matches just before a final newline; the
docstring of `validate_username` ("contain only letters, numbers, and
underscores") and the spec both promise charset-only acceptance. -/

/-- **C7 (bug evidence).** The four-character string `"abc\n"` contains
a character outside `[A-Za-z0-9_]`, yet `validate_username` accepts it:
the code contradicts its own docstring (and the claim) on this input. -/
theorem username_trailing_newline_accepted :
    validate_username "abc\n" = true ∧
    ('\n' ∈ "abc\n".data ∧ isUsernameChar '\n' = false) ∧
    3 ≤ "abc\n".length ∧ "abc\n".length ≤ 50 := by
  decide

/-! ## C8 — admin activate/deactivate rules -/

/-- **C8.** For an admin caller present in the store: deactivating the
caller's own id fails with 400 and changes nothing (so the caller stays
active); deactivating or activating an absent id fails with 404 and
changes nothing; deactivating another existing user returns that user
with `is_active := false` and stores exactly that; activating any
existing user — self included, no restriction — returns it with
`is_active := true` and stores exactly that. -/
theorem admin_activation_rules (adminU target : UserRec)
    (db : List UserRec) (targetId : Nat) (hadm : adminU ∈ db) :
    deactivate_user adminU.id adminU db
      = (.error ⟨400, "Cannot deactivate yourself"⟩, db) ∧
    ((∀ u ∈ db, u.id ≠ targetId) →
      deactivate_user targetId adminU db = (.error ⟨404, "User not found"⟩, db)) ∧
    ((∀ u ∈ db, u.id ≠ targetId) →
      activate_user targetId adminU db = (.error ⟨404, "User not found"⟩, db)) ∧
    (db.find? (fun w => w.id == targetId) = some target → targetId ≠ adminU.id →
      deactivate_user targetId adminU db
        = (.ok { target with isActive := false },
           replaceFirst (fun w => w.id == targetId) { target with isActive := false } db)) ∧
    (db.find? (fun w => w.id == targetId) = some target →
      activate_user targetId adminU db
        = (.ok { target with isActive := true },
           replaceFirst (fun w => w.id == targetId) { target with isActive := true } db)) := by
  refine ⟨?_, ?_, ?_, ?_, ?_⟩
  · simp [deactivate_user]
  · intro habs
    have hid : targetId ≠ adminU.id := fun h => habs adminU hadm h.symm
    have hnone : db.find? (fun u => u.id == targetId) = none :=
      List.find?_eq_none.mpr (fun u hu => by simp [habs u hu])
    simp [deactivate_user, hid, Ne.symm hid, hnone]
  · intro habs
    have hnone : db.find? (fun u => u.id == targetId) = none :=
      List.find?_eq_none.mpr (fun u hu => by simp [habs u hu])
    simp [activate_user, hnone]
  · intro hfind hid
    simp [deactivate_user, hfind, hid]
  · intro hfind
    simp [activate_user, hfind]

/-- Witness for C8 on the concrete store `[admin, bob]`: the admin's
self-deactivation is rejected with 400 leaving the store unchanged,
deactivating absent id 99 yields 404, and deactivating then reactivating
bob flips only his `is_active` flag. -/
theorem admin_activation_rules_witness :
    deactivate_user 1 wAdmin wUserDb
      = (.error ⟨400, "Cannot deactivate yourself"⟩, wUserDb) ∧
    deactivate_user 99 wAdmin wUserDb
      = (.error ⟨404, "User not found"⟩, wUserDb) ∧
    deactivate_user 2 wAdmin wUserDb
      = (.ok { wBob with isActive := false },
         [wAdmin, { wBob with isActive := false }]) ∧
    activate_user 2 wAdmin wUserDb
      = (.ok { wBob with isActive := true },
         [wAdmin, { wBob with isActive := true }]) := by
  have h1 := (admin_activation_rules wAdmin wBob wUserDb 2 (by decide)).1
  have h2 := (admin_activation_rules wAdmin wBob wUserDb 99 (by decide)).2.1 (by decide)
  have h4 := (admin_activation_rules wAdmin wBob wUserDb 2 (by decide)).2.2.2.1
    (by decide) (by decide)
  have h5 := (admin_activation_rules wAdmin wBob wUserDb 2 (by decide)).2.2.2.2
    (by decide)
  refine ⟨h1, h2, ?_, ?_⟩
  · rw [h4]; exact rfl
  · rw [h5]; exact rfl

/-! ## C1 — cross-owner access is masked as 404 -/

/-- The owner-scoped lookup misses every task of a different owner:
with primary-key-unique ids, a task owned by `a ≠ b` is invisible to
`b`'s lookup. -/
theorem findTask_cross_owner_none (db : List Task) (t : Task) (a b : Nat)
    (hmem : t ∈ db) (hown : t.ownerId = a) (hab : a ≠ b)
    (hids : (db.map Task.id).Nodup) :
    findTask t.id b db = none := by
  apply List.find?_eq_none.mpr
  intro x hx
  by_cases hid : x.id = t.id
  · have hxt : x = t := List.inj_on_of_nodup_map hids hx hmem hid
    subst hxt
    simp [hown, hab]
  · simp [hid]

/-- **C1.** For distinct users `a` (owner) and `b`, and a task `t` of
`a` in a store with unique task ids: `b`'s get, update and delete on
`t.id` each fail with the 404 "Task not found" and leave the store — in
particular `t` — unchanged; moreover each of `b`'s responses is
identical to the response on a store from which every task with that id
has been removed, so the failure is indistinguishable from plain
nonexistence. -/
theorem cross_owner_access_masked (db : List Task) (t : Task) (a b : Nat)
    (d : TaskUpdate) (now : Nat)
    (hmem : t ∈ db) (hown : t.ownerId = a) (hab : a ≠ b)
    (hids : (db.map Task.id).Nodup) :
    get_task t.id b db = .error taskNotFoundError ∧
    update_task t.id d b now db = (.error taskNotFoundError, db) ∧
    delete_task t.id b db = (.error taskNotFoundError, db) ∧
    get_task t.id b (db.filter (fun u => !(u.id == t.id)))
      = get_task t.id b db ∧
    (update_task t.id d b now (db.filter (fun u => !(u.id == t.id)))).1
      = (update_task t.id d b now db).1 ∧
    (delete_task t.id b (db.filter (fun u => !(u.id == t.id)))).1
      = (delete_task t.id b db).1 := by
  have hnone : findTask t.id b db = none :=
    findTask_cross_owner_none db t a b hmem hown hab hids
  have hnone' : findTask t.id b (db.filter (fun u => !(u.id == t.id))) = none := by
    apply List.find?_eq_none.mpr
    intro x hx
    have := (List.mem_filter.mp hx).2
    simp at this
    simp [this]
  refine ⟨?_, ?_, ?_, ?_, ?_, ?_⟩ <;>
    simp [get_task, update_task, delete_task, hnone, hnone']

/-- Witness for C1: in the four-task store, user 2's get, update and
delete on task 1 (owned by user 1) all yield the masking 404 and leave
the store unchanged. -/
theorem cross_owner_access_masked_witness :
    get_task 1 2 wTaskDb = .error taskNotFoundError ∧
    update_task 1 wEmptyUpdate 2 50 wTaskDb = (.error taskNotFoundError, wTaskDb) ∧
    delete_task 1 2 wTaskDb = (.error taskNotFoundError, wTaskDb) ∧
    get_task 1 2 (wTaskDb.filter (fun u => !(u.id == 1))) = get_task 1 2 wTaskDb := by
  have h := cross_owner_access_masked wTaskDb wTask1 1 2 wEmptyUpdate 50
    (by decide) (by decide) (by decide) (by decide)
  exact ⟨h.1, h.2.1, h.2.2.1, h.2.2.2.1⟩

/-! ## Frame lemmas for the partial update (`update_task`, lines 183–196) -/

/-- The partial update never touches id, owner or creation time. -/
theorem applyTaskUpdate_id_owner_created (d : TaskUpdate) (now : Nat) (t : Task) :
    (applyTaskUpdate d now t).id = t.id ∧
    (applyTaskUpdate d now t).ownerId = t.ownerId ∧
    (applyTaskUpdate d now t).createdAt = t.createdAt := by
  rcases d with ⟨ti, de, st, pr, du⟩
  cases ti <;> cases de <;> cases du <;> cases pr <;> cases st <;>
    simp [applyTaskUpdate] <;> split <;> simp

/-- The stored `completed_at` after a partial update: stamped with the
current time exactly when the supplied status is `completed`, otherwise
carried over (in particular it is never cleared). -/
theorem applyTaskUpdate_completedAt (d : TaskUpdate) (now : Nat) (t : Task) :
    (applyTaskUpdate d now t).completedAt
      = if d.status = some TaskStatus.completed then some now
        else t.completedAt := by
  rcases d with ⟨ti, de, st, pr, du⟩
  cases ti <;> cases de <;> cases du <;> cases pr <;> rcases st with _ | s <;>
    simp [applyTaskUpdate] <;> cases s <;> simp

/-- Each unsupplied field keeps its prior value. -/
theorem applyTaskUpdate_frame (d : TaskUpdate) (now : Nat) (t : Task) :
    (d.title = none → (applyTaskUpdate d now t).title = t.title) ∧
    (d.description = none → (applyTaskUpdate d now t).description = t.description) ∧
    (d.status = none → (applyTaskUpdate d now t).status = t.status) ∧
    (d.priority = none → (applyTaskUpdate d now t).priority = t.priority) ∧
    (d.dueDate = none → (applyTaskUpdate d now t).dueDate = t.dueDate) := by
  rcases d with ⟨ti, de, st, pr, du⟩
  cases ti <;> cases de <;> cases du <;> cases pr <;> rcases st with _ | s <;>
    simp [applyTaskUpdate] <;> cases s <;> simp

/-- A present description or due date stays present through a partial
update: a supplied value is stored as `some _`, an unsupplied one is
kept, so neither field can be reset to null. -/
theorem applyTaskUpdate_keeps_some (d : TaskUpdate) (now : Nat) (t : Task) :
    (t.description.isSome → (applyTaskUpdate d now t).description.isSome) ∧
    (t.dueDate.isSome → (applyTaskUpdate d now t).dueDate.isSome) := by
  rcases d with ⟨ti, de, st, pr, du⟩
  cases ti <;> cases de <;> cases du <;> cases pr <;> rcases st with _ | s <;>
    simp [applyTaskUpdate] <;> cases s <;> simp

/-- Deleting removes a row and never edits the others: the resulting
store is a subset of the original. -/
theorem removeFirst_subset {α : Type} (p : α → Bool) (l : List α) :
    ∀ u ∈ removeFirst p l, u ∈ l := by
  induction l with
  | nil => intro u hu; simp [removeFirst] at hu
  | cons x rest ih =>
    intro u hu
    by_cases hx : p x
    · simp [removeFirst, hx] at hu
      exact List.mem_cons_of_mem x hu
    · simp [removeFirst, hx] at hu
      rcases hu with h | h
      · simp [h]
      · exact List.mem_cons_of_mem x (ih u h)

/-! ## C4 — the `completed_at` lifecycle -/

/-- **C4.** Creation stores `completed_at = null` and `status = todo`
and leaves every pre-existing row untouched; an update applies exactly
the partial-update transform to the found row (no other operation
rewrites a row — get and list are read-only by type, and deletion only
removes); that transform stamps `completed_at` with the current time
exactly when the supplied status is `completed` (the update that takes
the task to completed status) and otherwise carries the old value
forward, so a later update moving the status away from completed does
not clear it. -/
theorem completed_at_lifecycle (data : TaskCreate) (userId now taskId : Nat)
    (db : List Task) (upd : TaskUpdate) (t : Task) :
    (create_task data userId now db).1.completedAt = none ∧
    (create_task data userId now db).1.status = TaskStatus.todo ∧
    (create_task data userId now db).2 = db ++ [(create_task data userId now db).1] ∧
    (findTask taskId userId db = some t →
      update_task taskId upd userId now db
        = (.ok (applyTaskUpdate upd now t),
           replaceFirst (fun u => u.id == taskId && u.ownerId == userId)
             (applyTaskUpdate upd now t) db)) ∧
    ((applyTaskUpdate upd now t).completedAt
      = if upd.status = some TaskStatus.completed then some now
        else t.completedAt) ∧
    (∀ u ∈ (delete_task taskId userId db).2, u ∈ db) := by
  refine ⟨rfl, rfl, rfl, ?_, applyTaskUpdate_completedAt upd now t, ?_⟩
  · intro hfind
    simp [update_task, hfind]
  · intro u hu
    unfold delete_task at hu
    cases hfind : findTask taskId userId db <;> rw [hfind] at hu <;> simp at hu
    · exact hu
    · exact removeFirst_subset _ db u hu

/-- Witness for C4: creating a task stores no `completed_at` and status
todo; updating task 2 (owned by user 1) to completed stamps
`completed_at = 70`; a later update back to in-progress keeps the
stamp. -/
theorem completed_at_lifecycle_witness :
    (create_task ⟨"new task", none, .medium, none⟩ 1 70 wTaskDb).1.completedAt = none ∧
    (create_task ⟨"new task", none, .medium, none⟩ 1 70 wTaskDb).1.status = TaskStatus.todo ∧
    (applyTaskUpdate { wEmptyUpdate with status := some .completed } 70 wTask2).completedAt
      = some 70 ∧
    (applyTaskUpdate { wEmptyUpdate with status := some .inProgress } 80
        (applyTaskUpdate { wEmptyUpdate with status := some .completed } 70 wTask2)).completedAt
      = some 70 := by
  have h1 := (completed_at_lifecycle ⟨"new task", none, .medium, none⟩ 1 70 2
    wTaskDb { wEmptyUpdate with status := some .completed } wTask2)
  have h2 := (completed_at_lifecycle ⟨"new task", none, .medium, none⟩ 1 80 2
    wTaskDb { wEmptyUpdate with status := some .inProgress }
    (applyTaskUpdate { wEmptyUpdate with status := some .completed } 70 wTask2))
  refine ⟨h1.1, h1.2.1, ?_, ?_⟩
  · rw [h1.2.2.2.2.1]; decide
  · rw [h2.2.2.2.2.1]; decide

/-! ## C9 — the update frame property -/

/-- A present description or due date survives any sequence of partial
updates. -/
theorem foldl_updates_keeps_some (calls : List (TaskUpdate × Nat)) (t : Task) :
    (t.description.isSome →
      (calls.foldl (fun acc c => applyTaskUpdate c.1 c.2 acc) t).description.isSome) ∧
    (t.dueDate.isSome →
      (calls.foldl (fun acc c => applyTaskUpdate c.1 c.2 acc) t).dueDate.isSome) := by
  induction calls generalizing t with
  | nil => exact ⟨fun h => h, fun h => h⟩
  | cons c rest ih =>
    refine ⟨fun h => ?_, fun h => ?_⟩
    · exact (ih (applyTaskUpdate c.1 c.2 t)).1
        ((applyTaskUpdate_keeps_some c.1 c.2 t).1 h)
    · exact (ih (applyTaskUpdate c.1 c.2 t)).2
        ((applyTaskUpdate_keeps_some c.1 c.2 t).2 h)

/-- **C9.** A successful update applies the partial-update transform to
the found row, and that transform changes only the supplied fields:
unsupplied title, description, status, priority and due date keep their
prior values, id, `owner_id` and `created_at` are never touched, and
`completed_at` keeps its prior value whenever status is not supplied.
Since `null` payload fields mean "not supplied" and every supplied
description/due date is stored as non-null, a non-null description or
due date survives any sequence of updates. -/
theorem update_frame_property (taskId userId now : Nat) (db : List Task)
    (upd : TaskUpdate) (t : Task) :
    (findTask taskId userId db = some t →
      (update_task taskId upd userId now db).1 = .ok (applyTaskUpdate upd now t)) ∧
    (upd.title = none → (applyTaskUpdate upd now t).title = t.title) ∧
    (upd.description = none →
      (applyTaskUpdate upd now t).description = t.description) ∧
    (upd.status = none → (applyTaskUpdate upd now t).status = t.status) ∧
    (upd.priority = none → (applyTaskUpdate upd now t).priority = t.priority) ∧
    (upd.dueDate = none → (applyTaskUpdate upd now t).dueDate = t.dueDate) ∧
    (applyTaskUpdate upd now t).id = t.id ∧
    (applyTaskUpdate upd now t).ownerId = t.ownerId ∧
    (applyTaskUpdate upd now t).createdAt = t.createdAt ∧
    (upd.status = none → (applyTaskUpdate upd now t).completedAt = t.completedAt) ∧
    (t.description.isSome →
      ∀ calls : List (TaskUpdate × Nat),
        (calls.foldl (fun acc c => applyTaskUpdate c.1 c.2 acc) t).description.isSome) ∧
    (t.dueDate.isSome →
      ∀ calls : List (TaskUpdate × Nat),
        (calls.foldl (fun acc c => applyTaskUpdate c.1 c.2 acc) t).dueDate.isSome) := by
  obtain ⟨hid, howner, hcreated⟩ := applyTaskUpdate_id_owner_created upd now t
  obtain ⟨hft, hfd, hfs, hfp, hfdd⟩ := applyTaskUpdate_frame upd now t
  refine ⟨?_, hft, hfd, hfs, hfp, hfdd, hid, howner, hcreated, ?_, ?_, ?_⟩
  · intro hfind
    simp [update_task, hfind]
  · intro hs
    rw [applyTaskUpdate_completedAt, hs]
    simp
  · intro hsome calls
    exact (foldl_updates_keeps_some calls t).1 hsome
  · intro hsome calls
    exact (foldl_updates_keeps_some calls t).2 hsome

/-- Witness for C9: updating task 1's priority only changes its
priority; title, description, status, due date, id, owner, creation
time and `completed_at` all keep their prior values, and task 1's
present description survives the update. -/
theorem update_frame_property_witness :
    (update_task 1 { wEmptyUpdate with priority := some .high } 1 90 wTaskDb).1
      = .ok (applyTaskUpdate { wEmptyUpdate with priority := some .high } 90 wTask1) ∧
    (applyTaskUpdate { wEmptyUpdate with priority := some .high } 90 wTask1).title
      = wTask1.title ∧
    (applyTaskUpdate { wEmptyUpdate with priority := some .high } 90 wTask1).completedAt
      = wTask1.completedAt ∧
    (applyTaskUpdate { wEmptyUpdate with priority := some .high } 90 wTask1).description.isSome
      := by
  have h := update_frame_property 1 1 90 wTaskDb
    { wEmptyUpdate with priority := some .high } wTask1
  refine ⟨h.1 (by decide), h.2.1 (by decide), h.2.2.2.2.2.2.2.2.2.1 (by decide), ?_⟩
  have := h.2.2.2.2.2.2.2.2.2.2.1 (by decide)
    [({ wEmptyUpdate with priority := some .high }, 90)]
  simpa using this

/-! ## C2 — user views never depend on the password hash -/

/-- A row test that ignores the hash finds a row in one store iff it
does in another store that agrees up to hashes. -/
theorem find?_isSome_congr (f : UserRec → Bool)
    (hf : ∀ u v, scrubHash u = scrubHash v → f u = f v) :
    ∀ db₁ db₂ : List UserRec, db₁.map scrubHash = db₂.map scrubHash →
      (db₁.find? f).isSome = (db₂.find? f).isSome := by
  intro db₁
  induction db₁ with
  | nil =>
    intro db₂ h
    cases db₂ <;> simp_all
  | cons x rest ih =>
    intro db₂ h
    cases db₂ with
    | nil => simp at h
    | cons y rest₂ =>
      simp only [List.map_cons, List.cons.injEq] at h
      obtain ⟨hxy, hrest⟩ := h
      have hfy : f x = f y := hf x y hxy
      rw [List.find?_cons, List.find?_cons, ← hfy]
      cases hfx : f x
      · simpa using ih rest₂ hrest
      · simp

/-- Stores agreeing up to hashes assign the same fresh primary key. -/
theorem freshUserId_congr (db₁ db₂ : List UserRec)
    (h : db₁.map scrubHash = db₂.map scrubHash) :
    freshUserId db₁ = freshUserId db₂ := by
  unfold freshUserId
  have e : ∀ db : List UserRec,
      db.map UserRec.id = (db.map scrubHash).map UserRec.id := by
    intro db
    rw [List.map_map]
    rfl
  rw [e db₁, e db₂, h]

/-- **C2.** The `UserResponse` view has no hash field and does not read
it: the view of a row is unchanged under any rewrite of its stored
hash; consequently `/users/me`, the admin listing, and the response of
`register` are identical across any two stores (and any two hash
functions) that agree on everything except password hashes. -/
theorem user_views_hash_independent (u : UserRec) (hsh : String)
    (u₁ u₂ : UserRec) (db₁ db₂ : List UserRec) (data : UserCreate)
    (hf₁ hf₂ : String → String) :
    toUserResponse { u with hashedPassword := hsh } = toUserResponse u ∧
    (scrubHash u₁ = scrubHash u₂ →
      get_current_user_profile u₁ = get_current_user_profile u₂) ∧
    (db₁.map scrubHash = db₂.map scrubHash →
      get_all_users db₁ = get_all_users db₂) ∧
    (db₁.map scrubHash = db₂.map scrubHash →
      (register_user data hf₁ db₁).1 = (register_user data hf₂ db₂).1) := by
  refine ⟨rfl, ?_, ?_, ?_⟩
  · intro h
    show toUserResponse u₁ = toUserResponse u₂
    calc toUserResponse u₁ = toUserResponse (scrubHash u₁) := rfl
      _ = toUserResponse (scrubHash u₂) := by rw [h]
      _ = toUserResponse u₂ := rfl
  · intro h
    show db₁.map toUserResponse = db₂.map toUserResponse
    have e : ∀ db : List UserRec,
        db.map toUserResponse = (db.map scrubHash).map toUserResponse := by
      intro db
      rw [List.map_map]
      rfl
    rw [e db₁, e db₂, h]
  · intro h
    have hu := find?_isSome_congr (fun w => w.username == data.username)
      (fun a b hab => by
        cases a
        cases b
        simp [scrubHash] at hab
        simp_all) db₁ db₂ h
    have he := find?_isSome_congr (fun w => w.email == data.email)
      (fun a b hab => by
        cases a
        cases b
        simp [scrubHash] at hab
        simp_all) db₁ db₂ h
    unfold register_user
    cases hval : validate_registration_data data.username data.email data.password
    · rw [← hu, ← he]
      by_cases h1 : (db₁.find? (fun w => w.username == data.username)).isSome <;>
        by_cases h2 : (db₁.find? (fun w => w.email == data.email)).isSome <;>
          simp [h1, h2, toUserResponse, freshUserId_congr db₁ db₂ h]
    · rfl

/-- Witness for C2: the same store with every hash rewritten yields the
same profile view, the same admin listing, and the same registration
response. -/
theorem user_views_hash_independent_witness :
    toUserResponse { wBob with hashedPassword := "other-hash" } = toUserResponse wBob ∧
    get_current_user_profile wBob = get_current_user_profile wBobRehashed ∧
    get_all_users wUserDb = get_all_users wUserDbRehashed ∧
    (register_user wDupUsernameData wHash wUserDb).1
      = (register_user wDupUsernameData (fun s => s) wUserDbRehashed).1 := by
  have h := user_views_hash_independent wBob "other-hash" wBob wBobRehashed
    wUserDb wUserDbRehashed wDupUsernameData wHash (fun s => s)
  exact ⟨h.1, h.2.1 (by decide), h.2.2.1 (by decide), h.2.2.2 (by decide)⟩

/-! ## C6 — duplicate registration -/

/-- **C6 (amended).** In any state holding a user with the requested
username, a second registration whose submitted fields pass format
validation fails with the 400 Conflict "Username already registered",
whatever the other fields are, and persists nothing; when the username
is free but the email is taken, it fails with "Email already
registered" and persists nothing — so when both are taken the username
conflict is the one reported (username is checked first). -/
theorem duplicate_registration_conflict (data : UserCreate)
    (hashFn : String → String) (db : List UserRec)
    (hu : validate_username data.username = true)
    (he : validate_email data.email = true)
    (hp : validate_password data.password = true) :
    ((∃ w ∈ db, w.username = data.username) →
      register_user data hashFn db
        = (.error ⟨400, "Username already registered"⟩, db)) ∧
    ((∀ w ∈ db, w.username ≠ data.username) →
      (∃ w ∈ db, w.email = data.email) →
      register_user data hashFn db
        = (.error ⟨400, "Email already registered"⟩, db)) := by
  have hval : validate_registration_data data.username data.email data.password
      = none := by
    simp [validate_registration_data, hu, he, hp]
  constructor
  · rintro ⟨w, hw, hwu⟩
    have hsome : (db.find? (fun u => u.username == data.username)).isSome := by
      rw [List.find?_isSome]
      exact ⟨w, hw, by simp [hwu]⟩
    simp [register_user, hval, hsome]
  · rintro hnone ⟨w, hw, hwe⟩
    have husername : db.find? (fun u => u.username == data.username) = none :=
      List.find?_eq_none.mpr (fun u hu' => by simp [hnone u hu'])
    have hemail : (db.find? (fun u => u.email == data.email)).isSome := by
      rw [List.find?_isSome]
      exact ⟨w, hw, by simp [hwe]⟩
    simp [register_user, hval, husername, hemail]

/-- Witness for C6 (amended): re-registering bob's username (valid
fields otherwise) is rejected with the username conflict; registering a
fresh username with bob's email is rejected with the email conflict;
neither changes the store. -/
theorem duplicate_registration_conflict_witness :
    register_user wDupUsernameData wHash wUserDb
      = (.error ⟨400, "Username already registered"⟩, wUserDb) ∧
    register_user wDupEmailData wHash wUserDb
      = (.error ⟨400, "Email already registered"⟩, wUserDb) := by
  constructor
  · exact (duplicate_registration_conflict wDupUsernameData wHash wUserDb
      (by decide) (by decide) (by decide)).1 ⟨wBob, by decide, by decide⟩
  · exact (duplicate_registration_conflict wDupEmailData wHash wUserDb
      (by decide) (by decide) (by decide)).2 (by decide) ⟨wBob, by decide, by decide⟩

/-- **C6 (counterexample to the unamended claim).** The store holds a
user named `bob`; a second registration using that same username but a
password failing format validation does fail — yet with the password
ValidationError, not with a Conflict error, because format validation
runs before the conflict checks.  (The store is still left unchanged.) -/
theorem duplicate_username_not_conflict_cex :
    (∃ w ∈ wUserDb, w.username = wDupBadPassword.username) ∧
    register_user wDupBadPassword wHash wUserDb
      = (.error ⟨400, "Password must be at least 8 characters and contain uppercase, lowercase, number, and special character"⟩, wUserDb) ∧
    (register_user wDupBadPassword wHash wUserDb).1
      ≠ .error ⟨400, "Username already registered"⟩ ∧
    (register_user wDupBadPassword wHash wUserDb).1
      ≠ .error ⟨400, "Email already registered"⟩ := by
  decide

/-! ## C10 — structure of tag removal -/

/-- Whitespace is never `>`. -/
theorem not_gt_of_pySpace {c : Char} (h : isPySpace c = true) :
    (c == '>') = false := by
  cases hbc : c == '>'
  · rfl
  · exfalso
    have hc : c = '>' := by simpa using hbc
    subst hc
    simp [isPySpace, pySpaceCodes] at h

/-- Whitespace is never `<`. -/
theorem not_lt_of_pySpace {c : Char} (h : isPySpace c = true) :
    (c == '<') = false := by
  cases hbc : c == '<'
  · rfl
  · exfalso
    have hc : c = '<' := by simpa using hbc
    subst hc
    simp [isPySpace, pySpaceCodes] at h

/-- The third component of `rtAux` records whether a `>` remains. -/
theorem rtAux_gt (cs : List Char) : (rtAux cs).2.2 = hasGt cs := by
  induction cs with
  | nil => rfl
  | cons c rest ih =>
    have hr : hasGt (c :: rest) = ((c == '>') || hasGt rest) := rfl
    simp only [rtAux]
    rw [hr, ih]

/-- Without a `>` in the input no tag can close, so removal keeps
everything. -/
theorem rtAux_fst_of_no_gt (cs : List Char) (h : hasGt cs = false) :
    (rtAux cs).1 = cs := by
  induction cs with
  | nil => rfl
  | cons c rest ih =>
    simp only [hasGt, List.any_cons, Bool.or_eq_false_iff] at h
    have hg : (rtAux rest).2.2 = false := by
      rw [rtAux_gt]
      exact h.2
    have hr : (rtAux rest).1 = rest := ih h.2
    by_cases hc : c == '<' <;> simp [rtAux, hc, hg, hr]

/-- A list without `>` is trivially tag-free. -/
theorem tagFree_of_no_gt (cs : List Char) (h : hasGt cs = false) :
    tagFree cs = true := by
  induction cs with
  | nil => rfl
  | cons c rest ih =>
    simp only [hasGt, List.any_cons, Bool.or_eq_false_iff] at h
    simp [tagFree, hasGt, h.2, ih h.2]

/-- Both outputs of `rtAux` are tag-free: in removed text no `<` is
ever followed by a `>`. -/
theorem tagFree_rtAux (cs : List Char) :
    tagFree (rtAux cs).1 = true ∧ tagFree (rtAux cs).2.1 = true := by
  induction cs with
  | nil => exact ⟨rfl, rfl⟩
  | cons c rest ih =>
    obtain ⟨ih1, ih2⟩ := ih
    constructor
    · by_cases hc : c == '<'
      · cases hg : (rtAux rest).2.2
        · have hgf : hasGt rest = false := by rw [← rtAux_gt]; exact hg
          have hr : (rtAux rest).1 = rest := rtAux_fst_of_no_gt rest hgf
          simp [rtAux, hc, hg, tagFree, hr, hgf, tagFree_of_no_gt rest hgf]
        · simp [rtAux, hc, hg, ih2]
      · simp [rtAux, hc, tagFree, ih1]
    · by_cases hgtc : c == '>' <;> simp [rtAux, hgtc, ih1, ih2]

/-- Fixpoint: tag removal does nothing to a tag-free list. -/
theorem rtAux_fst_of_tagFree (cs : List Char) (h : tagFree cs = true) :
    (rtAux cs).1 = cs := by
  induction cs with
  | nil => rfl
  | cons c rest ih =>
    simp only [tagFree, Bool.and_eq_true, Bool.or_eq_true, Bool.not_eq_true'] at h
    obtain ⟨h1, h2⟩ := h
    by_cases hc : c == '<'
    · have hgf : hasGt rest = false := by
        rcases h1 with h1 | h1
        · rw [hc] at h1; cases h1
        · exact h1
      have hg : (rtAux rest).2.2 = false := by rw [rtAux_gt]; exact hgf
      simp [rtAux, hc, hg, rtAux_fst_of_no_gt rest hgf]
    · simp [rtAux, hc, ih h2]

/-- `hasGt` is monotone under sublists (contrapositive form). -/
theorem hasGt_false_of_sublist {l₁ l₂ : List Char} (hsub : List.Sublist l₁ l₂)
    (h : hasGt l₂ = false) : hasGt l₁ = false := by
  cases hg : hasGt l₁
  · rfl
  · exfalso
    simp only [hasGt, List.any_eq_true] at hg
    simp only [hasGt, List.any_eq_false] at h
    obtain ⟨c, hc, hcgt⟩ := hg
    exact h c (hsub.subset hc) hcgt

/-- `tagFree` is closed under sublists: dropping characters cannot
create a `<` … `>` pair. -/
theorem tagFree_sublist {l₁ l₂ : List Char} (hsub : List.Sublist l₁ l₂)
    (h : tagFree l₂ = true) : tagFree l₁ = true := by
  induction hsub with
  | slnil => rfl
  | cons a hs ih =>
    simp only [tagFree, Bool.and_eq_true] at h
    exact ih h.2
  | @cons₂ l₁ l₂ a hs ih =>
    simp only [tagFree, Bool.and_eq_true, Bool.or_eq_true, Bool.not_eq_true'] at h ⊢
    refine ⟨?_, ih h.2⟩
    rcases h.1 with h1 | h1
    · exact Or.inl h1
    · exact Or.inr (hasGt_false_of_sublist hs h1)

/-! ## C10 — structure of whitespace collapsing -/

/-- The head of a collapsed nonempty list is the original head, or the
space replacing it when it was whitespace. -/
theorem collapseWs_head (c : Char) (l : List Char) :
    (collapseWs (c :: l)).head? = some (if isPySpace c then ' ' else c) := by
  induction l generalizing c with
  | nil => by_cases h : isPySpace c <;> simp [collapseWs, h]
  | cons d rest ih =>
    by_cases h1 : isPySpace c <;> by_cases h2 : isPySpace d <;>
      simp [collapseWs, h1, h2, ih]

/-- Collapsing whitespace neither creates nor destroys a `>`. -/
theorem hasGt_collapseWs (cs : List Char) :
    hasGt (collapseWs cs) = hasGt cs := by
  induction cs with
  | nil => rfl
  | cons c rest ih =>
    cases rest with
    | nil =>
      by_cases h : isPySpace c
      · simp [collapseWs, h, hasGt, not_gt_of_pySpace h]
      · simp [collapseWs, h]
    | cons d rest2 =>
      by_cases h1 : isPySpace c
      · by_cases h2 : isPySpace d
        · have hstep : collapseWs (c :: d :: rest2) = collapseWs (d :: rest2) := by
            simp [collapseWs, h1, h2]
          rw [hstep, ih]
          simp [hasGt, List.any_cons, not_gt_of_pySpace h1]
        · have hstep : collapseWs (c :: d :: rest2) = ' ' :: collapseWs (d :: rest2) := by
            simp [collapseWs, h1, h2]
          rw [hstep]
          have hgc : hasGt (' ' :: collapseWs (d :: rest2))
              = hasGt (collapseWs (d :: rest2)) := by
            simp [hasGt, List.any_cons]
          rw [hgc, ih]
          simp [hasGt, List.any_cons, not_gt_of_pySpace h1]
      · have hstep : collapseWs (c :: d :: rest2) = c :: collapseWs (d :: rest2) := by
          simp [collapseWs, h1]
        rw [hstep]
        have hgc : hasGt (c :: collapseWs (d :: rest2))
            = ((c == '>') || hasGt (collapseWs (d :: rest2))) := rfl
        rw [hgc, ih]
        rfl

/-- Collapsing whitespace preserves tag-freeness (`<` and `>` are not
whitespace, and only whitespace is rewritten — to a space). -/
theorem tagFree_collapseWs (cs : List Char) (h : tagFree cs = true) :
    tagFree (collapseWs cs) = true := by
  induction cs with
  | nil => rfl
  | cons c rest ih =>
    have hrest : tagFree rest = true := by
      simp only [tagFree, Bool.and_eq_true] at h
      exact h.2
    have hhead := h
    simp only [tagFree, Bool.and_eq_true, Bool.or_eq_true, Bool.not_eq_true'] at hhead
    cases rest with
    | nil =>
      by_cases hc : isPySpace c
      · simp [collapseWs, hc, tagFree, hasGt]
      · simp [collapseWs, hc, tagFree, hasGt]
    | cons d rest2 =>
      by_cases h1 : isPySpace c
      · by_cases h2 : isPySpace d
        · simp only [collapseWs, h1, h2, Bool.and_self, if_true]
          exact ih hrest
        · simp only [collapseWs, h1, h2, Bool.and_false, if_false, if_true]
          simp only [tagFree, Bool.and_eq_true, Bool.or_eq_true, Bool.not_eq_true']
          refine ⟨Or.inl ?_, ih hrest⟩
          simp
      · simp only [collapseWs, h1, Bool.false_and, if_false]
        simp only [tagFree, Bool.and_eq_true, Bool.or_eq_true, Bool.not_eq_true']
        refine ⟨?_, ih hrest⟩
        rcases hhead.1 with hx | hx
        · exact Or.inl hx
        · exact Or.inr (by rw [hasGt_collapseWs]; exact hx)

/-- `headNotWs` holds of a list whose head is known non-whitespace. -/
theorem headNotWs_of_head? {l : List Char} {c : Char}
    (h : l.head? = some c) (hc : isPySpace c = false) :
    headNotWs l = true := by
  cases l with
  | nil => rfl
  | cons a rest =>
    simp at h
    subst h
    simp [headNotWs, hc]

/-- The output of whitespace collapsing is canonical: every whitespace
character in it is a single space not followed by whitespace. -/
theorem wsCanonical_collapseWs (cs : List Char) :
    wsCanonical (collapseWs cs) = true := by
  induction cs with
  | nil => rfl
  | cons c rest ih =>
    cases rest with
    | nil =>
      by_cases h : isPySpace c <;>
        simp [collapseWs, h, wsCanonical, headNotWs]
    | cons d rest2 =>
      by_cases h1 : isPySpace c
      · by_cases h2 : isPySpace d
        · simpa [collapseWs, h1, h2] using ih
        · have hh : (collapseWs (d :: rest2)).head? = some d := by
            rw [collapseWs_head, if_neg (by simp [h2])]
          simp only [collapseWs, h1, h2, Bool.and_false, if_false, if_true]
          simp only [wsCanonical, Bool.and_eq_true]
          refine ⟨?_, ih⟩
          simp [headNotWs_of_head? hh (by simpa using h2)]
      · simp only [collapseWs, h1, Bool.false_and, if_false]
        simp only [wsCanonical, Bool.and_eq_true]
        exact ⟨by simp [h1], ih⟩

/-- Fixpoint: collapsing does nothing to a canonical list. -/
theorem collapseWs_of_wsCanonical (cs : List Char) (h : wsCanonical cs = true) :
    collapseWs cs = cs := by
  induction cs with
  | nil => rfl
  | cons c rest ih =>
    simp only [wsCanonical, Bool.and_eq_true, Bool.or_eq_true,
      Bool.not_eq_true'] at h
    obtain ⟨h1, h2⟩ := h
    cases rest with
    | nil =>
      by_cases hc : isPySpace c
      · have hsp : c = ' ' := by
          rcases h1 with h1 | h1
          · rw [h1] at hc; cases hc
          · simpa using h1.1
        simp [collapseWs, hc, hsp]
      · simp [collapseWs, hc]
    | cons d rest2 =>
      by_cases hc : isPySpace c
      · have hsp : (c == ' ') = true ∧ headNotWs (d :: rest2) = true := by
          rcases h1 with h1 | h1
          · rw [h1] at hc; cases hc
          · exact ⟨h1.1, h1.2⟩
        have hd : isPySpace d = false := by
          have := hsp.2
          simpa [headNotWs] using this
        have hceq : c = ' ' := by simpa using hsp.1
        simp [collapseWs, hc, hd, hceq, ih h2]
      · simp [collapseWs, hc, ih h2]

/-! ## C10 — structure of stripping -/

/-- Canonicality restricts to a prefix (the last element only loses its
pair constraint). -/
theorem wsCanonical_append_left (xs ys : List Char)
    (h : wsCanonical (xs ++ ys) = true) : wsCanonical xs = true := by
  induction xs with
  | nil => rfl
  | cons c rest ih =>
    rw [List.cons_append] at h
    simp only [wsCanonical, Bool.and_eq_true, Bool.or_eq_true,
      Bool.not_eq_true'] at h ⊢
    obtain ⟨h1, h2⟩ := h
    refine ⟨?_, ih h2⟩
    rcases h1 with h1 | h1
    · exact Or.inl h1
    · refine Or.inr ⟨h1.1, ?_⟩
      cases rest with
      | nil => rfl
      | cons d rest2 =>
        have := h1.2
        simpa [headNotWs] using this

/-- Canonicality survives dropping a whitespace prefix. -/
theorem wsCanonical_dropWhile (cs : List Char) (h : wsCanonical cs = true) :
    wsCanonical (cs.dropWhile isPySpace) = true := by
  induction cs with
  | nil => rfl
  | cons c rest ih =>
    simp only [wsCanonical, Bool.and_eq_true] at h
    by_cases hc : isPySpace c
    · rw [List.dropWhile_cons, if_pos hc]
      exact ih h.2
    · rw [List.dropWhile_cons, if_neg hc]
      simp only [wsCanonical, Bool.and_eq_true]
      exact h

/-- Stripping yields a sublist (a contiguous infix, in fact). -/
theorem stripWs_sublist (cs : List Char) : List.Sublist (stripWs cs) cs := by
  unfold stripWs
  have h1 : List.Sublist (cs.dropWhile isPySpace) cs := List.dropWhile_sublist _
  have h2 : List.Sublist ((cs.dropWhile isPySpace).reverse.dropWhile isPySpace)
      (cs.dropWhile isPySpace).reverse := List.dropWhile_sublist _
  have h3 := h2.reverse
  rw [List.reverse_reverse] at h3
  exact h3.trans h1

/-- Canonicality survives stripping. -/
theorem wsCanonical_stripWs (cs : List Char) (h : wsCanonical cs = true) :
    wsCanonical (stripWs cs) = true := by
  have hfront := wsCanonical_dropWhile cs h
  have hsplit :
      ((cs.dropWhile isPySpace).reverse.dropWhile isPySpace).reverse
        ++ ((cs.dropWhile isPySpace).reverse.takeWhile isPySpace).reverse
      = cs.dropWhile isPySpace := by
    rw [← List.reverse_append, List.takeWhile_append_dropWhile, List.reverse_reverse]
  have hs : stripWs cs
      = ((cs.dropWhile isPySpace).reverse.dropWhile isPySpace).reverse := rfl
  rw [hs]
  exact wsCanonical_append_left _
    (((cs.dropWhile isPySpace).reverse.takeWhile isPySpace).reverse)
    (by rw [hsplit]; exact hfront)

/-- The head surviving `dropWhile` fails the predicate. -/
theorem dropWhile_head_not (cs : List Char) :
    ∀ c, (cs.dropWhile isPySpace).head? = some c → isPySpace c = false := by
  induction cs with
  | nil => intro c h; simp at h
  | cons a rest ih =>
    intro c h
    by_cases ha : isPySpace a
    · rw [List.dropWhile_cons, if_pos ha] at h
      exact ih c h
    · rw [List.dropWhile_cons, if_neg ha] at h
      simp at h
      rw [← h]
      simpa using ha

/-- `dropWhile` is the identity when the head already fails the
predicate. -/
theorem dropWhile_eq_self_of_headNotWs (cs : List Char)
    (h : ∀ c, cs.head? = some c → isPySpace c = false) :
    cs.dropWhile isPySpace = cs := by
  cases cs with
  | nil => rfl
  | cons a rest =>
    rw [List.dropWhile_cons, if_neg]
    simp [h a rfl]

/-- Stripping is idempotent. -/
theorem stripWs_idem (cs : List Char) : stripWs (stripWs cs) = stripWs cs := by
  have hA := dropWhile_head_not cs
  have hB := dropWhile_head_not (cs.dropWhile isPySpace).reverse
  have hAeq : (((cs.dropWhile isPySpace).reverse.dropWhile isPySpace).reverse)
      ++ (((cs.dropWhile isPySpace).reverse.takeWhile isPySpace).reverse)
      = cs.dropWhile isPySpace := by
    rw [← List.reverse_append, List.takeWhile_append_dropWhile, List.reverse_reverse]
  show stripWs (((cs.dropWhile isPySpace).reverse.dropWhile isPySpace).reverse)
      = ((cs.dropWhile isPySpace).reverse.dropWhile isPySpace).reverse
  unfold stripWs
  have h1 : (((cs.dropWhile isPySpace).reverse.dropWhile isPySpace).reverse).dropWhile
      isPySpace = ((cs.dropWhile isPySpace).reverse.dropWhile isPySpace).reverse := by
    apply dropWhile_eq_self_of_headNotWs
    intro c hc
    cases hrev : ((cs.dropWhile isPySpace).reverse.dropWhile isPySpace).reverse with
    | nil => rw [hrev] at hc; cases hc
    | cons x xs =>
      rw [hrev] at hc
      simp at hc
      subst hc
      have hAhead : (cs.dropWhile isPySpace).head? = some x := by
        rw [← hAeq, hrev]
        simp
      exact hA x hAhead
  rw [h1, List.reverse_reverse]
  rw [dropWhile_eq_self_of_headNotWs _ (fun c hc => hB c hc)]

/-- Fixpoint restated for `removeTags` itself. -/
theorem removeTags_of_tagFree (cs : List Char) (h : tagFree cs = true) :
    removeTags cs = cs :=
  rtAux_fst_of_tagFree cs h

/-! ## C10 — idempotence of `sanitize_string` -/

/-- **C10.** `sanitize_string` passes null through and is idempotent: a
single application already leaves no substring matching the tag pattern,
no whitespace other than single interior spaces, and no leading or
trailing whitespace, so a second application changes nothing. -/
theorem sanitize_idempotent :
    sanitize_string none = none ∧
    (∀ s : String,
      sanitize_string (sanitize_string (some s)) = sanitize_string (some s)) ∧
    (∀ s : String,
      tagFree (sanitizeStr s).data = true ∧
      wsCanonical (sanitizeStr s).data = true ∧
      stripWs (sanitizeStr s).data = (sanitizeStr s).data) := by
  have hout : ∀ cs : List Char,
      tagFree (stripWs (collapseWs (removeTags cs))) = true ∧
      wsCanonical (stripWs (collapseWs (removeTags cs))) = true ∧
      stripWs (stripWs (collapseWs (removeTags cs)))
        = stripWs (collapseWs (removeTags cs)) := by
    intro cs
    refine ⟨?_, ?_, stripWs_idem _⟩
    · exact tagFree_sublist (stripWs_sublist _)
        (tagFree_collapseWs _ (tagFree_rtAux cs).1)
    · exact wsCanonical_stripWs _ (wsCanonical_collapseWs _)
  have hfix : ∀ s : String, sanitizeStr (sanitizeStr s) = sanitizeStr s := by
    intro s
    obtain ⟨h1, h2, h3⟩ := hout s.data
    show String.mk (stripWs (collapseWs (removeTags
        (String.mk (stripWs (collapseWs (removeTags s.data)))).data)))
      = String.mk (stripWs (collapseWs (removeTags s.data)))
    have hdata : (String.mk (stripWs (collapseWs (removeTags s.data)))).data
        = stripWs (collapseWs (removeTags s.data)) := rfl
    rw [hdata, removeTags_of_tagFree _ h1, collapseWs_of_wsCanonical _ h2, h3]
  refine ⟨rfl, ?_, ?_⟩
  · intro s
    show some (sanitizeStr (sanitizeStr s)) = some (sanitizeStr s)
    rw [hfix s]
  · intro s
    exact hout s.data

end TaskApi
